import Mathlib

/-!
Verification of the trading_sessions crate: a scalar trading-session
classifier over Unix timestamps, a verifier comparing a caller-supplied
label against the classifier, and a bulk columnar annotator that restates
the same hour table as a when/then/otherwise expression chain over a
polars LazyFrame.

The embedding follows src/trading_sessions/src/trading_sessions.rs.
Timestamps are the u32 field unix_timestamp, modelled as Nat: the only
arithmetic performed on a timestamp is one % by 86400 and one / by 3600,
neither of which can overflow, so Nat agrees with u32 arithmetic on every
representable input.
-/

namespace TradingSessions

/-- Constant SECONDS_PER_DAY of the source. -/
def SECONDS_PER_DAY : Nat := 86400

/-- Constant SECONDS_PER_HOUR of the source. -/
def SECONDS_PER_HOUR : Nat := 3600

/-- Struct IdentifyTradingSession: holds the u32 Unix timestamp in seconds. -/
structure IdentifyTradingSession where
  unix_timestamp : Nat
  deriving Repr, DecidableEq

/-- Constructor IdentifyTradingSession::new. -/
def IdentifyTradingSession.new (t : Nat) : IdentifyTradingSession := ⟨t⟩

/-- Method identify_trading_session: the hour of day in UTC is
(unix_timestamp % 86400) / 3600, then the hour is sent through the
ascending first-match range table. The Rust match on the unsigned ranges
0..=6, 7..=8, 9..=12, 13..=15, 16..=21, _ is exactly this if-chain. -/
def IdentifyTradingSession.identify_trading_session (s : IdentifyTradingSession) : String :=
  let utc_hour := (s.unix_timestamp % SECONDS_PER_DAY) / SECONDS_PER_HOUR
  if utc_hour ≤ 6 then "Tokyo"
  else if utc_hour ≤ 8 then "Tokyo_London"
  else if utc_hour ≤ 12 then "London"
  else if utc_hour ≤ 15 then "London_NewYork"
  else if utc_hour ≤ 21 then "NewYork"
  else "Undefined"

/-- Struct SessionVerification: a u32 timestamp and a claimed session string. -/
structure SessionVerification where
  unix_timestamp : Nat
  session : String
  deriving Repr, DecidableEq

/-- Constructor SessionVerification::new. -/
def SessionVerification.new (t : Nat) (s : String) : SessionVerification := ⟨t, s⟩

/-- Method SessionVerification::verify: build an IdentifyTradingSession from
the stored timestamp, run the classifier, and compare the stored session
string with String equality. -/
def SessionVerification.verify (v : SessionVerification) : Bool :=
  let session_identifier := IdentifyTradingSession.new v.unix_timestamp
  let identified_session := session_identifier.identify_trading_session
  v.session == identified_session

/-- The hour-of-day extraction of line 42 of the source,
(t % SECONDS_PER_DAY) / SECONDS_PER_HOUR, as a standalone function. -/
def utc_hour_of (t : Nat) : Nat := (t % SECONDS_PER_DAY) / SECONDS_PER_HOUR

/-- The extracted hour is below 24. -/
theorem utc_hour_of_lt_24 (t : Nat) : utc_hour_of t < 24 := by
  simp only [utc_hour_of, SECONDS_PER_DAY, SECONDS_PER_HOUR]
  omega

/-- The classifier is the hour table applied to utc_hour_of. -/
theorem identify_of_utc_hour (t : Nat) :
    (IdentifyTradingSession.new t).identify_trading_session =
      (if utc_hour_of t ≤ 6 then "Tokyo"
       else if utc_hour_of t ≤ 8 then "Tokyo_London"
       else if utc_hour_of t ≤ 12 then "London"
       else if utc_hour_of t ≤ 15 then "London_NewYork"
       else if utc_hour_of t ≤ 21 then "NewYork"
       else "Undefined") := rfl

/-- C3: identify_trading_session maps hour = (T mod 86400) div 3600 through the
ascending first-match table: hours 0-6 give Tokyo, 7-8 Tokyo_London, 9-12
London, 13-15 London_NewYork, 16-21 NewYork, 22-23 Undefined; the hour always
lies in [0,23], so the table is total over its domain. -/
theorem identify_trading_session_table (t : Nat) :
    utc_hour_of t < 24 ∧
    (utc_hour_of t ≤ 6 →
      (IdentifyTradingSession.new t).identify_trading_session = "Tokyo") ∧
    (7 ≤ utc_hour_of t → utc_hour_of t ≤ 8 →
      (IdentifyTradingSession.new t).identify_trading_session = "Tokyo_London") ∧
    (9 ≤ utc_hour_of t → utc_hour_of t ≤ 12 →
      (IdentifyTradingSession.new t).identify_trading_session = "London") ∧
    (13 ≤ utc_hour_of t → utc_hour_of t ≤ 15 →
      (IdentifyTradingSession.new t).identify_trading_session = "London_NewYork") ∧
    (16 ≤ utc_hour_of t → utc_hour_of t ≤ 21 →
      (IdentifyTradingSession.new t).identify_trading_session = "NewYork") ∧
    (22 ≤ utc_hour_of t → utc_hour_of t ≤ 23 →
      (IdentifyTradingSession.new t).identify_trading_session = "Undefined") := by
  refine ⟨utc_hour_of_lt_24 t, ?_, ?_, ?_, ?_, ?_, ?_⟩ <;>
    · intros
      rw [identify_of_utc_hour]
      split_ifs <;> first | rfl | omega

/-- Witness for C3 at the timestamp 32400, whose hour is 9 (London). -/
theorem identify_trading_session_table_witness :
    (IdentifyTradingSession.new 32400).identify_trading_session = "London" :=
  (identify_trading_session_table 32400).2.2.2.1 (by decide) (by decide)

/-- C4: verify returns true exactly when the supplied session string equals the
scalar classifier's output, under exact String equality; verify only calls the
classifier and compares, with no boundary logic of its own. -/
theorem verify_iff_identify (t : Nat) (L : String) :
    (SessionVerification.new t L).verify = true ↔
      L = (IdentifyTradingSession.new t).identify_trading_session := by
  simp [SessionVerification.verify, SessionVerification.new]

/-- Witness for C4 at timestamp 1708574400 with the label Tokyo. -/
theorem verify_iff_identify_witness :
    (SessionVerification.new 1708574400 "Tokyo").verify = true :=
  (verify_iff_identify 1708574400 "Tokyo").mpr (by decide)

/-- C5: the hour-of-day used by classification is (T mod 86400) div 3600, an
integer in [0,23], and classification depends on the timestamp only through
this value. -/
theorem utc_hour_spec (t : Nat) :
    utc_hour_of t = (t % 86400) / 3600 ∧ utc_hour_of t ≤ 23 ∧
      ∀ u : Nat, utc_hour_of u = utc_hour_of t →
        (IdentifyTradingSession.new u).identify_trading_session =
          (IdentifyTradingSession.new t).identify_trading_session := by
  refine ⟨rfl, by have := utc_hour_of_lt_24 t; omega, ?_⟩
  intro u hu
  rw [identify_of_utc_hour, identify_of_utc_hour, hu]

/-- Witness for C5: timestamps 86400 and 0 share hour 0 and hence one label. -/
theorem utc_hour_spec_witness :
    (IdentifyTradingSession.new 86400).identify_trading_session =
      (IdentifyTradingSession.new 0).identify_trading_session :=
  (utc_hour_spec 0).2.2 86400 (by decide)

/-- C6: classification is periodic with period one day: adding a whole number
of days (keeping the sum inside u32 range, the type of the source's field)
never changes the label. -/
theorem identify_day_periodic (t k : Nat) (h : t + 86400 * k < 4294967296) :
    (IdentifyTradingSession.new (t + 86400 * k)).identify_trading_session =
      (IdentifyTradingSession.new t).identify_trading_session := by
  rw [identify_of_utc_hour, identify_of_utc_hour]
  have hu : utc_hour_of (t + 86400 * k) = utc_hour_of t := by
    simp only [utc_hour_of, SECONDS_PER_DAY, SECONDS_PER_HOUR]
    omega
  rw [hu]

/-- Witness for C6 at timestamp 3600 and one day. -/
theorem identify_day_periodic_witness :
    (IdentifyTradingSession.new (3600 + 86400 * 1)).identify_trading_session =
      (IdentifyTradingSession.new 3600).identify_trading_session :=
  identify_day_periodic 3600 1 (by decide)

/-- C7 counterexample: the hour of timestamp 1708574400 is not 0 (it is 4),
so the hour annotations of the concrete scenarios are wrong as stated. -/
theorem concrete_hour_annotation_false : ¬ (utc_hour_of 1708574400 = 0) := by
  decide

/-- C7 amended: the concrete scenarios hold with hours 4, 10 and 14:
1708574400 is hour 4 and Tokyo, 1708596000 is hour 10 and London, 1708696800
is hour 14 and London_NewYork, and verify accepts Tokyo and rejects London at
1708574400. -/
theorem concrete_scenarios :
    utc_hour_of 1708574400 = 4 ∧
    (IdentifyTradingSession.new 1708574400).identify_trading_session = "Tokyo" ∧
    utc_hour_of 1708596000 = 10 ∧
    (IdentifyTradingSession.new 1708596000).identify_trading_session = "London" ∧
    utc_hour_of 1708696800 = 14 ∧
    (IdentifyTradingSession.new 1708696800).identify_trading_session = "London_NewYork" ∧
    (SessionVerification.new 1708574400 "Tokyo").verify = true ∧
    (SessionVerification.new 1708574400 "London").verify = false := by
  decide

/-- A cell of the columnar collaborator. The claims need integer cells (the
time column) and string cells (the Session column). -/
inductive PValue where
  | pint (n : Int)
  | pstr (s : String)
  deriving Repr, DecidableEq

/-- A materialized dataframe: the named columns in order, each one a list of
cells, one per row. -/
abbrev PFrame := List (String × List PValue)

/-- Column lookup by name, first match. -/
def lookupColumn (df : PFrame) (name : String) : Option (List PValue) :=
  match df with
  | [] => none
  | c :: rest => if c.fst = name then some c.snd else lookupColumn rest name

/-- The with_column/alias semantics of polars: replace the column of that name
in place when present, append it at the end when absent. -/
def setColumn (df : PFrame) (name : String) (vals : List PValue) : PFrame :=
  match df with
  | [] => [(name, vals)]
  | c :: rest =>
      if c.fst = name then (name, vals) :: rest else c :: setColumn rest name vals

/-- The when/then/otherwise chain of apply_session_column, evaluated on one
integer cell of the time column: hour is (time % SECONDS_PER_DAY) /
SECONDS_PER_HOUR, compared with lt_eq against 6, 8, 12, 15, 21 in order, with
the otherwise branch producing the literal hello. polars integer % and /
truncate toward zero as in Rust, hence Int.tmod and Int.tdiv. -/
def session_when_chain (n : Int) : String :=
  let hour := (Int.tmod n ((SECONDS_PER_DAY : Nat) : Int)).tdiv ((SECONDS_PER_HOUR : Nat) : Int)
  if hour ≤ 6 then "Tokyo"
  else if hour ≤ 8 then "Tokyo_London"
  else if hour ≤ 12 then "London"
  else if hour ≤ 15 then "London_NewYork"
  else if hour ≤ 21 then "NewYork"
  else "hello"

/-- Evaluation of the chain on one cell: a non-integer time cell is a
collaborator error (polars refuses % on a string column), propagated. -/
def sessionCell (v : PValue) : Except String PValue :=
  match v with
  | .pint n => .ok (.pstr (session_when_chain n))
  | .pstr _ => .error "time column is not an integer column"

/-- Evaluation of the chain over a whole column, cell by cell, propagating
the first collaborator error. -/
def sessionCells : List PValue → Except String (List PValue)
  | [] => .ok []
  | v :: rest =>
      match sessionCell v with
      | .error e => .error e
      | .ok s =>
          match sessionCells rest with
          | .error e => .error e
          | .ok ss => .ok (s :: ss)

/-- Method SessionColumn::apply_session_column, observed at materialization:
evaluate the chain over the time column and store the result as the column
named Session via with_column. A missing time column is the collaborator
error, propagated unmodified. -/
def apply_session_column (df : PFrame) : Except String PFrame :=
  match lookupColumn df "time" with
  | none => .error "column not found: time"
  | some timeVals =>
      match sessionCells timeVals with
      | .error e => .error e
      | .ok sessionVals => .ok (setColumn df "Session" sessionVals)

/-- On a Nat timestamp cast to Int, the chain computes the same hour as
utc_hour_of and takes the corresponding branch. -/
theorem session_when_chain_ofNat (t : Nat) :
    session_when_chain (t : Int) =
      (if utc_hour_of t ≤ 6 then "Tokyo"
       else if utc_hour_of t ≤ 8 then "Tokyo_London"
       else if utc_hour_of t ≤ 12 then "London"
       else if utc_hour_of t ≤ 15 then "London_NewYork"
       else if utc_hour_of t ≤ 21 then "NewYork"
       else "hello") := by
  have h1 : Int.tmod (t : Int) ((SECONDS_PER_DAY : Nat) : Int) =
      ((t % SECONDS_PER_DAY : Nat) : Int) := by
    rw [Int.tmod_eq_emod (Int.ofNat_nonneg t) (Int.ofNat_nonneg SECONDS_PER_DAY)]
    norm_cast
  have h2 : Int.tdiv ((t % SECONDS_PER_DAY : Nat) : Int) ((SECONDS_PER_HOUR : Nat) : Int) =
      ((utc_hour_of t : Nat) : Int) := by
    rw [Int.tdiv_eq_ediv (Int.ofNat_nonneg _) (Int.ofNat_nonneg _)]
    simp only [utc_hour_of]
    norm_cast
  simp only [session_when_chain, h1, h2]
  norm_cast

/-- On hours 0 to 21 the chain and the scalar classifier agree. -/
theorem session_when_chain_eq_identify (t : Nat) (h : utc_hour_of t ≤ 21) :
    session_when_chain (t : Int) =
      (IdentifyTradingSession.new t).identify_trading_session := by
  rw [session_when_chain_ofNat, identify_of_utc_hour]
  split_ifs <;> first | rfl | omega

/-- C1: on every timestamp whose UTC hour is neither 22 nor 23, the Session
value the bulk annotator writes for that time cell is exactly the scalar
classifier's label. -/
theorem scalar_bulk_agree (t : Nat)
    (h22 : utc_hour_of t ≠ 22) (h23 : utc_hour_of t ≠ 23) :
    apply_session_column [("time", [PValue.pint (t : Int)])] =
      Except.ok [("time", [PValue.pint (t : Int)]),
        ("Session", [PValue.pstr ((IdentifyTradingSession.new t).identify_trading_session)])] := by
  have hle : utc_hour_of t ≤ 21 := by
    have := utc_hour_of_lt_24 t
    omega
  rw [← session_when_chain_eq_identify t hle]
  simp [apply_session_column, lookupColumn, sessionCell, setColumn, sessionCells]

/-- Witness for C1 at timestamp 0 (hour 0, Tokyo). -/
theorem scalar_bulk_agree_witness :
    apply_session_column [("time", [PValue.pint ((0 : Nat) : Int)])] =
      Except.ok [("time", [PValue.pint ((0 : Nat) : Int)]),
        ("Session", [PValue.pstr "Tokyo"])] := by
  have h := scalar_bulk_agree 0 (by decide) (by decide)
  rw [show (IdentifyTradingSession.new 0).identify_trading_session = "Tokyo" from rfl] at h
  exact h

/-- C2: on every timestamp with UTC hour 22 or 23, the scalar classifier
returns Undefined while the bulk fallback branch writes hello, a different
string. -/
theorem scalar_bulk_diverge (t : Nat)
    (h : utc_hour_of t = 22 ∨ utc_hour_of t = 23) :
    (IdentifyTradingSession.new t).identify_trading_session = "Undefined" ∧
    apply_session_column [("time", [PValue.pint (t : Int)])] =
      Except.ok [("time", [PValue.pint (t : Int)]),
        ("Session", [PValue.pstr "hello"])] ∧
    "hello" ≠ "Undefined" := by
  have h22 : 22 ≤ utc_hour_of t ∧ utc_hour_of t ≤ 23 := by
    rcases h with h | h <;> omega
  refine ⟨?_, ?_, by decide⟩
  · rw [identify_of_utc_hour]
    split_ifs <;> first | rfl | omega
  · have hc : session_when_chain (t : Int) = "hello" := by
      rw [session_when_chain_ofNat]
      split_ifs <;> first | rfl | omega
    simp [apply_session_column, lookupColumn, sessionCell, setColumn, hc, sessionCells]

/-- Witness for C2 at timestamp 79200 (hour 22). -/
theorem scalar_bulk_diverge_witness :
    (IdentifyTradingSession.new 79200).identify_trading_session = "Undefined" ∧
    apply_session_column [("time", [PValue.pint ((79200 : Nat) : Int)])] =
      Except.ok [("time", [PValue.pint ((79200 : Nat) : Int)]),
        ("Session", [PValue.pstr "hello"])] ∧
    "hello" ≠ "Undefined" :=
  scalar_bulk_diverge 79200 (Or.inl (by decide))

/-- C10: on every time cell with UTC hour 22 or 23, the bulk annotator writes
exactly the string hello, which lies outside the six-label set used by the
scalar classifier. -/
theorem bulk_fallback_hello (t : Nat)
    (h : utc_hour_of t = 22 ∨ utc_hour_of t = 23) :
    apply_session_column [("time", [PValue.pint (t : Int)])] =
      Except.ok [("time", [PValue.pint (t : Int)]),
        ("Session", [PValue.pstr "hello"])] ∧
    "hello" ∉ ["Tokyo", "Tokyo_London", "London", "London_NewYork", "NewYork", "Undefined"] := by
  have h22 : 22 ≤ utc_hour_of t ∧ utc_hour_of t ≤ 23 := by
    rcases h with h | h <;> omega
  refine ⟨?_, by decide⟩
  have hc : session_when_chain (t : Int) = "hello" := by
    rw [session_when_chain_ofNat]
    split_ifs <;> first | rfl | omega
  simp [apply_session_column, lookupColumn, sessionCell, setColumn, hc, sessionCells]

/-- Witness for C10 at timestamp 82800 (hour 23). -/
theorem bulk_fallback_hello_witness :
    apply_session_column [("time", [PValue.pint ((82800 : Nat) : Int)])] =
      Except.ok [("time", [PValue.pint ((82800 : Nat) : Int)]),
        ("Session", [PValue.pstr "hello"])] ∧
    "hello" ∉ ["Tokyo", "Tokyo_London", "London", "London_NewYork", "NewYork", "Undefined"] :=
  bulk_fallback_hello 82800 (Or.inr (by decide))

/-- Setting a column and looking up the same name yields the set values. -/
theorem lookupColumn_setColumn_self (df : PFrame) (name : String) (vals : List PValue) :
    lookupColumn (setColumn df name vals) name = some vals := by
  induction df with
  | nil => simp [setColumn, lookupColumn]
  | cons c rest ih =>
      by_cases hc : c.fst = name
      · simp [setColumn, hc, lookupColumn]
      · simp [setColumn, hc, lookupColumn, ih]

/-- Setting a column leaves the lookup of every other name unchanged. -/
theorem lookupColumn_setColumn_ne (df : PFrame) (name other : String)
    (vals : List PValue) (h : other ≠ name) :
    lookupColumn (setColumn df name vals) other = lookupColumn df other := by
  have hno : ¬ name = other := fun he => h he.symm
  induction df with
  | nil => simp [setColumn, lookupColumn, hno]
  | cons c rest ih =>
      by_cases hc : c.fst = name
      · have hco : ¬ c.fst = other := by
          rw [hc]
          exact hno
        simp [setColumn, hc, lookupColumn, hno, hco]
      · by_cases hco : c.fst = other
        · simp [setColumn, hc, lookupColumn, hco, h]
        · simp [setColumn, hc, lookupColumn, hco, ih]

/-- The column names after setColumn: unchanged when the name was present,
the name appended when it was absent. -/
theorem setColumn_names (df : PFrame) (name : String) (vals : List PValue) :
    (setColumn df name vals).map Prod.fst =
      if name ∈ df.map Prod.fst then df.map Prod.fst
      else df.map Prod.fst ++ [name] := by
  induction df with
  | nil => simp [setColumn]
  | cons c rest ih =>
      by_cases hc : c.fst = name
      · simp [setColumn, hc]
      · have hcn : ¬ name = c.fst := fun he => hc he.symm
        by_cases hm : name ∈ rest.map Prod.fst
        · simp [setColumn, hc, ih, hm, hcn]
        · simp [setColumn, hc, ih, hm, hcn]

/-- Under distinct input column names, the frame after setColumn carries
exactly one column of the set name. -/
theorem setColumn_count (df : PFrame) (name : String) (vals : List PValue)
    (hnd : (df.map Prod.fst).Nodup) :
    ((setColumn df name vals).map Prod.fst).count name = 1 := by
  rw [setColumn_names]
  by_cases hm : name ∈ df.map Prod.fst
  · rw [if_pos hm]
    exact List.count_eq_one_of_mem hnd hm
  · rw [if_neg hm, List.count_append]
    rw [List.count_eq_zero_of_not_mem hm]
    simp

/-- Setting the same column to the same values twice is one setting. -/
theorem setColumn_setColumn (df : PFrame) (name : String) (vals : List PValue) :
    setColumn (setColumn df name vals) name vals = setColumn df name vals := by
  induction df with
  | nil => simp [setColumn]
  | cons c rest ih =>
      by_cases hc : c.fst = name
      · simp [setColumn, hc]
      · simp [setColumn, hc, ih]

/-- Mapping the cell evaluation over an all-integer time column succeeds and
produces the chain value of every cell. -/
theorem sessionCells_pint (ns : List Int) :
    sessionCells (ns.map PValue.pint) =
      Except.ok (ns.map (fun n => PValue.pstr (session_when_chain n))) := by
  induction ns with
  | nil => rfl
  | cons n rest ih =>
      simp [sessionCells, sessionCell, ih]

/-- C8: on a frame with distinct column names whose time column holds the
integers ns, apply_session_column succeeds and returns the frame with exactly
one Session column holding one chain value per input row, every other column
answering lookups exactly as before, and the column list unchanged apart from
a Session column appended when absent. -/
theorem apply_session_column_frame (df : PFrame) (ns : List Int)
    (htime : lookupColumn df "time" = some (ns.map PValue.pint))
    (hnd : (df.map Prod.fst).Nodup) :
    ∃ df', apply_session_column df = Except.ok df' ∧
      lookupColumn df' "Session" =
        some (ns.map (fun n => PValue.pstr (session_when_chain n))) ∧
      (ns.map (fun n => PValue.pstr (session_when_chain n))).length = ns.length ∧
      ((df'.map Prod.fst).count "Session") = 1 ∧
      (∀ name, name ≠ "Session" → lookupColumn df' name = lookupColumn df name) ∧
      df'.map Prod.fst =
        (if "Session" ∈ df.map Prod.fst then df.map Prod.fst
         else df.map Prod.fst ++ ["Session"]) := by
  refine ⟨setColumn df "Session" (ns.map (fun n => PValue.pstr (session_when_chain n))),
    ?_, ?_, ?_, ?_, ?_, ?_⟩
  · simp only [apply_session_column, htime, sessionCells_pint]
  · exact lookupColumn_setColumn_self df "Session" _
  · exact List.length_map ns _
  · exact setColumn_count df "Session" _ hnd
  · intro name hname
    exact lookupColumn_setColumn_ne df "Session" name _ hname
  · exact setColumn_names df "Session" _

/-- Witness for C8 on a one-column frame with two rows. -/
theorem apply_session_column_frame_witness :
    ∃ df', apply_session_column [("time", [PValue.pint 0, PValue.pint 36000])] =
        Except.ok df' ∧
      lookupColumn df' "Session" =
        some (([0, 36000] : List Int).map
          (fun n => PValue.pstr (session_when_chain n))) ∧
      (([0, 36000] : List Int).map
          (fun n => PValue.pstr (session_when_chain n))).length =
        ([0, 36000] : List Int).length ∧
      ((df'.map Prod.fst).count "Session") = 1 ∧
      (∀ name, name ≠ "Session" →
        lookupColumn df' name =
          lookupColumn [("time", [PValue.pint 0, PValue.pint 36000])] name) ∧
      df'.map Prod.fst =
        (if "Session" ∈ ([("time", [PValue.pint 0, PValue.pint 36000])] : PFrame).map Prod.fst
         then ([("time", [PValue.pint 0, PValue.pint 36000])] : PFrame).map Prod.fst
         else ([("time", [PValue.pint 0, PValue.pint 36000])] : PFrame).map Prod.fst
           ++ ["Session"]) :=
  apply_session_column_frame [("time", [PValue.pint 0, PValue.pint 36000])]
    [0, 36000] (by rfl) (by simp)

/-- C9: apply_session_column is idempotent: a successful application returns a
frame that the next application maps to itself, so in particular the Session
column after two applications equals the Session column after one. -/
theorem apply_session_column_idem (df df' : PFrame)
    (h : apply_session_column df = Except.ok df') :
    apply_session_column df' = Except.ok df' := by
  rw [apply_session_column] at h
  cases htime : lookupColumn df "time" with
  | none => simp [htime] at h
  | some timeVals =>
      simp only [htime] at h
      cases hmap : sessionCells timeVals with
      | error e => simp [hmap] at h
      | ok sessionVals =>
          simp only [hmap] at h
          have hdf : df' = setColumn df "Session" sessionVals := by
            cases h
            rfl
          subst hdf
          rw [apply_session_column,
            lookupColumn_setColumn_ne df "Session" "time" sessionVals (by decide)]
          simp only [htime, hmap, setColumn_setColumn]

/-- Witness for C9: a second application on the annotated one-row frame
returns it unchanged. -/
theorem apply_session_column_idem_witness :
    apply_session_column
        [("time", [PValue.pint 0]), ("Session", [PValue.pstr "Tokyo"])] =
      Except.ok [("time", [PValue.pint 0]), ("Session", [PValue.pstr "Tokyo"])] :=
  apply_session_column_idem [("time", [PValue.pint 0])]
    [("time", [PValue.pint 0]), ("Session", [PValue.pstr "Tokyo"])] (by rfl)

end TradingSessions
